import Mathlib

/-!
Verification of the state-reconciliation and caching layer of the
nexus-grid-ui dashboard.  The JavaScript source is shallowly embedded:
JSON-like runtime values become the inductive type `JVal`, objects are
association lists of fields, the tier-aware health merge
(`mergeMarketHealth`), the fetch wrapper (`jget` / `fetchMarketHealth`),
the persistent key-value helpers (`loadJson` / `saveJson`), the
watchlist reconciler and the grid-order visibility logic are translated
function by function from the source file.
-/

set_option maxRecDepth 4096

namespace NexusGrid

/-- A JavaScript runtime value as it occurs in the dashboard code:
JSON data plus the distinguished values null and undefined. -/
inductive JVal where
  | null
  | undefined
  | bool (b : Bool)
  | num (n : Int)
  | str (s : String)
  | arr (xs : List JVal)
  | obj (fs : List (String × JVal))

/-- JS truthiness: null, undefined, false, 0 and the empty string are
falsy; arrays and objects are always truthy. -/
def jsTruthy : JVal → Bool
  | .null => false
  | .undefined => false
  | .bool b => b
  | .num n => n != 0
  | .str s => s != ""
  | .arr _ => true
  | .obj _ => true

/-- JS typeof v === "object" (true for null, arrays and objects). -/
def jsTypeofObject : JVal → Bool
  | .null => true
  | .arr _ => true
  | .obj _ => true
  | _ => false

/-- The own enumerable properties of a value, as used by object spread
and property access: objects expose their fields, arrays and strings
expose index-keyed entries, primitives expose nothing. -/
def fieldsOf : JVal → List (String × JVal)
  | .obj fs => fs
  | .arr xs => xs.enum.map (fun p => (toString p.1, p.2))
  | .str s => s.data.enum.map (fun p => (toString p.1, JVal.str (String.mk [p.2])))
  | _ => []

/-- First-match association-list lookup (later bindings in the list are
shadowed ones, so the head of the list is the authoritative binding). -/
def lookupF : List (String × JVal) → String → Option JVal
  | [], _ => none
  | (k, v) :: fs, key => if k = key then some v else lookupF fs key

/-- Property access `v[k]`: `none` models the JS result undefined for a
missing key or a keyless primitive. -/
def getJ (v : JVal) (k : String) : Option JVal :=
  lookupF (fieldsOf v) k

/-- Object spread `{...a, ...b}`: fields of `b` override fields of `a`.
Represented by list append with first-match lookup, so the bindings of
`b` win. -/
def jsSpread (a b : List (String × JVal)) : List (String × JVal) :=
  b ++ a

/-- Property assignment `o[k] = v`: prepend the binding so that lookup
sees the new value. -/
def setF (fs : List (String × JVal)) (k : String) (v : JVal) : List (String × JVal) :=
  (k, v) :: fs

/-- The JS idiom `x || {}` (also covering access on a missing field). -/
def jsOrEmptyObj : Option JVal → JVal
  | some x => if jsTruthy x then x else .obj []
  | none => .obj []

/-- The loose test `x != null`, true iff the property is present and is
neither null nor undefined. -/
def notNullish : Option JVal → Bool
  | none => false
  | some .null => false
  | some .undefined => false
  | some _ => true

/-- Whether a metrics value carries any multi-day-only field, mirroring
the four checks in mergeMarketHealth. -/
def hasMultiDay (m : JVal) : Bool :=
  notNullish (getJ m "trend30d") ||
  notNullish (getJ m "trend180d") ||
  notNullish (getJ m "maxDrawdown180d") ||
  notNullish (getJ m "drawdown180d")

/-- Word characters of the JS regex escape backslash-b boundary test. -/
def isWordChar (c : Char) : Bool :=
  c.isAlpha || c.isDigit || c == '_'

/-- Whether the pattern 24h (case-insensitive, with word boundaries on
both sides) matches starting at the head of the character list, given
the character immediately before the current position. -/
def matches24hAt (prev : Option Char) : List Char → Bool
  | '2' :: '4' :: c :: rest =>
    (c == 'h' || c == 'H') &&
    (match prev with | none => true | some p => !isWordChar p) &&
    (match rest with | [] => true | r :: _ => !isWordChar r)
  | _ => false

/-- Scan of the regex test for a whole-word 24h occurrence. -/
def scan24h (prev : Option Char) : List Char → Bool
  | [] => false
  | c :: cs => matches24hAt prev (c :: cs) || scan24h (some c) cs

/-- The test of the JS regex word-boundary 24h word-boundary with the
ignore-case flag, applied to a string. -/
def test24h (s : String) : Bool :=
  scan24h none s.data

/-- Whether a character is one of the ASCII whitespace characters that
matter for trimming the strings this code handles. -/
def jsIsSpace (c : Char) : Bool :=
  c == ' ' || c == '\t' || c == '\n' || c == '\r'

/-- Trim leading and trailing whitespace of a character list. -/
def trimChars (cs : List Char) : List Char :=
  ((cs.dropWhile jsIsSpace).reverse.dropWhile jsIsSpace).reverse

/-- ASCII uppercase conversion of one character. -/
def asciiUpper (c : Char) : Char :=
  if 'a' ≤ c && c ≤ 'z' then Char.ofNat (c.toNat - 32) else c

/-- Whether a trimmed, non-empty string is a decimal numeric literal as
accepted by JS number conversion: optional sign, then digits with an
optional fractional part (or a bare fractional part), then an optional
exponent part. -/
def numericCore (cs : List Char) : Bool :=
  let cs1 := match cs with
    | '+' :: r => r
    | '-' :: r => r
    | r => r
  let p1 := cs1.span Char.isDigit
  let expOk : List Char → Bool := fun l =>
    match l with
    | [] => true
    | e :: rest =>
      (e == 'e' || e == 'E') &&
      (let rest1 := match rest with
        | '+' :: r => r
        | '-' :: r => r
        | r => r
       rest1 != [] && rest1.all Char.isDigit)
  match p1.2 with
  | '.' :: r2 =>
    let p2 := r2.span Char.isDigit
    (p1.1 != [] || p2.1 != []) && expOk p2.2
  | rest => p1.1 != [] && expOk rest

/-- Number.isFinite(Number(x)) for a possibly-absent property value.
Undefined and objects coerce to NaN; null, booleans and in-range
numbers are finite; strings are finite when blank or decimal-numeric;
an empty array coerces to 0 and longer arrays join with commas and are
never numeric. -/
def jsNumberIsFinite : Option JVal → Bool
  | none => false
  | some .undefined => false
  | some .null => true
  | some (.bool _) => true
  | some (.num _) => true
  | some (.str s) =>
    let t := trimChars s.data
    t == [] || numericCore t
  | some (.arr []) => true
  | some (.arr (_ :: _)) => false
  | some (.obj _) => false

/-- typeof v === "string". -/
def isStrVal : JVal → Bool
  | .str _ => true
  | _ => false

/-- The string carried by a string value (irrelevant elsewhere, only
applied after an isStrVal test). -/
def strOfVal : JVal → String
  | .str s => s
  | _ => ""

/-- The reasons property of a record when it is an array, else the
empty list (Array.isArray guard in the source). -/
def reasonsArr (v : JVal) : List JVal :=
  match getJ v "reasons" with
  | some (.arr xs) => xs
  | _ => []

/-- Translation of mergeMarketHealth(prev, incoming, fast): a non-object
incoming keeps prev; a missing previous record or a full fetch adopts
incoming wholesale; a fast fetch overlays incoming on prev and, when the
previous record carries multi-day metrics that the incoming one lacks,
restores the previous metrics on top of the incoming ones, keeps a
numeric previous score, and rebuilds reasons from previous non-24h
entries followed by incoming 24h entries, capped at 12. -/
def mergeMarketHealth (prev incoming : JVal) (fast : Bool) : JVal :=
  if !jsTruthy incoming || !jsTypeofObject incoming then prev
  else if !jsTruthy prev || !jsTypeofObject prev then incoming
  else if !fast then incoming
  else
    let prevMetrics := jsOrEmptyObj (getJ prev "metrics")
    let inMetrics := jsOrEmptyObj (getJ incoming "metrics")
    let hasPrevMultiDay := hasMultiDay prevMetrics
    let hasIncomingMultiDay := hasMultiDay inMetrics
    let merged := jsSpread (fieldsOf prev) (fieldsOf incoming)
    if hasPrevMultiDay && !hasIncomingMultiDay then
      let merged := setF merged "metrics"
        (.obj (jsSpread (fieldsOf inMetrics) (fieldsOf prevMetrics)))
      let merged :=
        if jsNumberIsFinite (getJ prev "score") then
          setF merged "score" ((getJ prev "score").getD .undefined)
        else merged
      let prevReasons := reasonsArr prev
      let inReasonsArr := reasonsArr incoming
      let keep := prevReasons.filter (fun s => isStrVal s && !test24h (strOfVal s))
      let add := inReasonsArr.filter (fun s => isStrVal s && test24h (strOfVal s))
      let merged := setF merged "reasons" (.arr ((keep ++ add).take 12))
      .obj merged
    else
      .obj merged

/-- Translation of normalizeSymbol: coerce to a string, trim, uppercase
and strip every character outside the class A-Z 0-9 dot underscore
hyphen. -/
def normalizeSymbol (x : String) : String :=
  let allowed : Char → Bool := fun c =>
    ('A' ≤ c && c ≤ 'Z') || ('0' ≤ c && c ≤ '9') ||
    c == '.' || c == '_' || c == '-'
  String.mk (((trimChars x.data).map asciiUpper).filter allowed)

/-- ASCII uppercase of a whole string, modelling toUpperCase on the
identifiers this code handles. -/
def upperStr (s : String) : String :=
  String.mk (s.data.map asciiUpper)

/-- The in-memory per-identity health cache marketHealthMap. -/
def HealthMap : Type := String → Option JVal

/-- The empty initial health cache (useState with an empty object). -/
def emptyHealthMap : HealthMap := fun _ => none

/-- The functional cache update performed inside fetchMarketHealth:
look up the previous record for the normalized symbol (undefined when
absent), merge the incoming data and store the result under the
symbol. -/
def applyHealthMerge (m : HealthMap) (S : String) (incoming : JVal) (fast : Bool) : HealthMap :=
  fun k =>
    if k = S then some (mergeMarketHealth ((m S).getD .undefined) incoming fast)
    else m k

/-- Outcome of one network request as seen by the jget wrapper: the
fetch promise rejects, the abort timer fires, or a response arrives
with an ok flag and a body text. -/
inductive NetResult where
  | transportError
  | timeout
  | response (ok : Bool) (body : String)

/-- The fixed default timeout of the jget and jpost wrappers, in
milliseconds. -/
def jgetDefaultTimeoutMs : Nat := 15000

/-- Translation of jget: a transport failure or timeout throws; a
response body is parsed as JSON, a non-empty unparseable body is
wrapped as a raw-text object, an empty body yields null; a non-2xx
response then throws, otherwise the data is returned.  The JSON.parse
call is abstracted as a parse oracle returning none exactly when it
would throw. -/
def jget (net : NetResult) (parse : String → Option JVal) : Except Unit JVal :=
  match net with
  | .transportError => .error ()
  | .timeout => .error ()
  | .response ok body =>
    let data : JVal :=
      if body = "" then .null
      else
        match parse body with
        | some v => v
        | none => .obj [("raw", .str body)]
    if ok then .ok data else .error ()

/-- Translation of fetchMarketHealth(symbol, opts): normalize the
symbol (empty means return null untouched), run jget, unwrap an
optional data envelope, and if the result is a truthy object merge it
into the health cache and return it; every thrown error is swallowed
and leaves the cache untouched. -/
def fetchMarketHealth (symbol : String) (net : NetResult)
    (parse : String → Option JVal) (m : HealthMap) (fast : Bool) :
    Option JVal × HealthMap :=
  let S := normalizeSymbol symbol
  if S = "" then (none, m)
  else
    match jget net parse with
    | .error _ => (none, m)
    | .ok r =>
      let data :=
        match getJ r "data" with
        | some v => if jsTruthy v then v else r
        | none => r
      if jsTruthy data && jsTypeofObject data then
        (some data, applyHealthMerge m S data fast)
      else
        (none, m)

/-- Translation of loadJson(key, fallback): the storage getItem call
and the JSON.parse call are oracles that may fail; a thrown getItem, a
missing or empty raw value, or an unparseable raw value all fall back.
The Except result records whether loadJson itself would throw. -/
def loadJson (getItem : String → Except Unit (Option String))
    (parse : String → Except Unit JVal) (key : String) (fallback : JVal) :
    Except Unit JVal :=
  match getItem key with
  | .error _ => .ok fallback
  | .ok none => .ok fallback
  | .ok (some raw) =>
    if raw = "" then .ok fallback
    else
      match parse raw with
      | .error _ => .ok fallback
      | .ok v => .ok v

/-- Translation of saveJson(key, v): stringify and setItem may both
fail; the surrounding try-catch swallows every failure, so saveJson
itself never throws. -/
def saveJson (setItem : String → String → Except Unit Unit)
    (stringify : JVal → Except Unit String) (key : String) (v : JVal) :
    Except Unit Unit :=
  match stringify v with
  | .error _ => .ok ()
  | .ok raw =>
    match setItem key raw with
    | .error _ => .ok ()
    | .ok _ => .ok ()

/-- The normalized, non-empty watchlist entries, exactly the items list
of the resolver auto-sync effect; its entries are also precisely the
keys of the wlMap lookup table built from the watchlist rows. -/
def wlItems (watchlist : List String) : List String :=
  (watchlist.map normalizeSymbol).filter (fun s => s != "")

/-- The isSym test of the auto-sync effect: the normalized input is a
key of wlMap, i.e. a normalized non-empty watchlist entry. -/
def isKnownSym (watchlist : List String) (x : String) : Bool :=
  let s := normalizeSymbol x
  s != "" && (wlItems watchlist).contains s

/-- Translation of the resolver auto-sync effect: with a non-empty
items list, an unknown primary input is replaced by the first item and
an unknown compare input by the second item (the first when only one
exists). -/
def reconcileSelections (watchlist : List String) (primary compare : String) :
    String × String :=
  let items := wlItems watchlist
  if items.isEmpty then (primary, compare)
  else
    let p := if isKnownSym watchlist primary then primary else items.headD ""
    let c :=
      if isKnownSym watchlist compare then compare
      else items.getD (min 1 (items.length - 1)) (items.headD "")
    (p, c)

/-- Translation of primarySym / compareSym: the normalized input is
accepted only when it is a wlMap key, otherwise the accepted identity
is the empty string. -/
def acceptedSym (watchlist : List String) (x : String) : String :=
  let s := normalizeSymbol x
  if (wlItems watchlist).contains s then s else ""

/-- Translation of derivedPrimaryLive / derivedCompareLive: nothing is
shown for an empty accepted identity; otherwise the watchlist row is
projected to a live view labelled with the accepted identity. -/
def derivedLiveFor (wlMap : String → Option JVal) (sym : String) : Option JVal :=
  if sym = "" then none
  else
    match wlMap sym with
    | none => none
    | some r =>
      let jsOr : JVal → JVal → JVal := fun a b => if jsTruthy a then a else b
      some (.obj
        [("price", (getJ r "price").getD .undefined),
         ("change24h", (getJ r "change24h").getD .undefined),
         ("volume24h", (getJ r "volume24h").getD .undefined),
         ("liquidity", (getJ r "liquidity").getD .undefined),
         ("source", jsOr ((getJ r "source").getD .undefined)
            (jsOr ((getJ r "mode").getD .undefined) (.str "watchlist"))),
         ("symbol", .str sym),
         ("mode", jsOr ((getJ r "mode").getD .undefined) (.str "market"))])

/-- The in-memory dashboard state touched by watchlist removal: the
watchlist itself, the per-identity health cache and the watchlist
snapshot cache. -/
structure DashState where
  watchlist : List String
  marketHealthMap : String → Option JVal
  wlCache : String → Option JVal

/-- Translation of removeFromWatchlist(sym): filter the watchlist; the
two caches are not touched by this function (no other code deletes
their entries either). -/
def removeFromWatchlist (sym : String) (st : DashState) : DashState :=
  { st with
    watchlist := st.watchlist.filter (fun x => normalizeSymbol x != normalizeSymbol sym) }

/-- A grid order as consumed by the visibility logic: only the id, the
status and the item name matter. -/
structure GridOrder where
  id : Option String
  status : Option String
  item : Option String
  deriving DecidableEq, Repr

/-- String(o.status or empty).toUpperCase() of an order. -/
def statusUpper (o : GridOrder) : String :=
  upperStr (o.status.getD "")

/-- JS truthiness of an order id: present and non-empty. -/
def truthyId (o : GridOrder) : Bool :=
  match o.id with
  | some s => s != ""
  | none => false

/-- String(o.id) for an order that passed the truthiness filter. -/
def idOf (o : GridOrder) : String :=
  o.id.getD ""

/-- The set of ids reported OPEN with a truthy id, as built by the
unhide effect. -/
def openIdsOf (orders : List GridOrder) : List String :=
  (orders.filter (fun o => statusUpper o == "OPEN" && truthyId o)).map idOf

/-- Translation of the unhide-open-orders effect body: with a non-empty
order list and a non-empty OPEN-id set, hidden ids reported OPEN are
filtered out; when nothing changes the previous list object is kept. -/
def unhideStep (orders : List GridOrder) (hidden : List String) : List String :=
  if orders.isEmpty then hidden
  else
    let openIds := openIdsOf orders
    if openIds.isEmpty then hidden
    else
      let arr := hidden
      let next := arr.filter (fun id => !openIds.contains id)
      if next.length = arr.length then hidden else next

/-- Translation of gridOrdersVisibleAll: an order with a truthy id is
visible iff its id is not hidden; an order without a truthy id is
always visible. -/
def gridOrdersVisibleAll (orders : List GridOrder) (hidden : List String) :
    List GridOrder :=
  orders.filter (fun o =>
    match o.id with
    | some s => if s != "" then !hidden.contains s else true
    | none => true)

/-! Concrete records used by the scenario claim and by the
counterexamples and witnesses below. -/

/-- Fast health record of the spec scenario, first fetch for BTC. -/
def scenarioFast1 : JVal :=
  .obj [("score", .num 80), ("status", .str "Healthy"),
        ("reasons", .arr [.str "vol up"])]

/-- Full health record of the spec scenario, second fetch for BTC. -/
def scenarioFull2 : JVal :=
  .obj [("score", .num 65), ("status", .str "Stable"),
        ("reasons", .arr [.str "trend30d down"]),
        ("metrics", .obj [("trend30d", .num (-5))])]

/-- Fast health record of the spec scenario, third fetch for BTC,
carrying no metrics object. -/
def scenarioFast3 : JVal :=
  .obj [("score", .num 90), ("reasons", .arr [.str "24h spike"])]

/-- The record stored for BTC after the three scenario merges. -/
def scenarioFinal : JVal :=
  ((applyHealthMerge
      (applyHealthMerge
        (applyHealthMerge emptyHealthMap "BTC" scenarioFast1 true)
        "BTC" scenarioFull2 false)
      "BTC" scenarioFast3 true) "BTC").getD .undefined

/-- A stored record carrying both a multi-day metric and a short-window
metric, used to probe the fast-merge policy. -/
def c2prev : JVal :=
  .obj [("score", .num 50),
        ("metrics", .obj [("trend30d", .num 3), ("trend24h", .num 5)]),
        ("reasons", .arr [.str "steady"])]

/-- An incoming fast record with no multi-day metric but a conflicting
short-window metric value. -/
def c2inc : JVal :=
  .obj [("score", .num 90),
        ("metrics", .obj [("trend24h", .num 7)]),
        ("reasons", .arr [.str "24h spike"])]

/-- A previously stored full record, used to show that a full merge
retains nothing from it. -/
def priorFull : JVal :=
  .obj [("score", .num 40), ("metrics", .obj [("trend30d", .num 9)])]

/-- A health cache holding priorFull under BTC. -/
def mPrior : HealthMap := fun k => if k = "BTC" then some priorFull else none

/-- A cached health record for the eviction counterexample. -/
def c7rec : JVal := .obj [("score", .num 71)]

/-- Dashboard state where BTC is watched and both caches hold an entry
for it. -/
def c7st : DashState :=
  ⟨["BTC"], fun k => if k = "BTC" then some c7rec else none,
    fun k => if k = "BTC" then some (JVal.obj [("price", JVal.num 100)]) else none⟩

/-- Dashboard state with two watched symbols and empty caches. -/
def c7wst : DashState := ⟨["BTC", "ETH"], fun _ => none, fun _ => none⟩

/-- Watchlist row table holding a cached 100 dollar price for A only. -/
def c6wlMap : String → Option JVal :=
  fun s => if s = "A" then some (.obj [("price", .num 100)]) else none

/-- An order reported open under a previously hidden id. -/
def c8order : GridOrder := ⟨some "42", some "open", none⟩

/-- An order whose id is absent. -/
def c10order : GridOrder := ⟨none, some "OPEN", some "BTC"⟩

/-! Helper lemmas shared by the claim theorems. -/

/-- Lookup over an appended field list tries the left part first. -/
theorem lookupF_append (a b : List (String × JVal)) (k : String) :
    lookupF (a ++ b) k = (lookupF a k).orElse (fun _ => lookupF b k) := by
  induction a with
  | nil => rfl
  | cons hd tl ih =>
    obtain ⟨k1, v1⟩ := hd
    simp only [List.cons_append, lookupF]
    split
    · rfl
    · exact ih

/-- A full (non-fast) merge of a truthy object is the incoming record
itself, whatever was stored before. -/
theorem mergeFull_eq_incoming (P X : JVal)
    (hX1 : jsTruthy X = true) (hX2 : jsTypeofObject X = true) :
    mergeMarketHealth P X false = X := by
  unfold mergeMarketHealth
  rw [hX1, hX2]
  simp

/-- A filter that does not change the length keeps the whole list. -/
theorem filter_of_length_eq {α : Type} (p : α → Bool) (l : List α)
    (h : (l.filter p).length = l.length) : l.filter p = l := by
  induction l with
  | nil => rfl
  | cons a t ih =>
    cases hp : p a with
    | true =>
      rw [List.filter_cons_of_pos hp] at h ⊢
      simp only [List.length_cons, Nat.succ.injEq] at h
      rw [ih h]
    | false =>
      rw [List.filter_cons_of_neg (by simp [hp])] at h
      simp only [List.length_cons] at h
      exfalso
      have hle := List.length_filter_le p t
      omega

/-- Shape of the unhide effect result once both emptiness guards have
been passed. -/
theorem unhideStep_eq (orders : List GridOrder) (hidden : List String)
    (h1 : orders.isEmpty = false) (h2 : (openIdsOf orders).isEmpty = false) :
    unhideStep orders hidden =
      if (hidden.filter (fun id => !(openIdsOf orders).contains id)).length = hidden.length
      then hidden
      else hidden.filter (fun id => !(openIdsOf orders).contains id) := by
  simp only [unhideStep, h1, h2, Bool.false_eq_true, if_false]

/-! The claim theorems. -/

/-- Claim C1: for every identity, every stored previous health record
(possibly absent) and every incoming record that is a non-null object,
merging at tier full stores exactly the incoming record, so a
subsequent read returns its fields with nothing retained from the
previous record. -/
theorem mergeFull_is_authoritative (m : HealthMap) (S : String) (X : JVal)
    (hX1 : jsTruthy X = true) (hX2 : jsTypeofObject X = true) :
    applyHealthMerge m S X false S = some X := by
  unfold applyHealthMerge
  rw [if_pos rfl, mergeFull_eq_incoming _ _ hX1 hX2]

/-- Witness for C1: a full merge over a cache already holding a prior
record for BTC stores exactly the incoming record. -/
theorem mergeFull_is_authoritative_witness :
    jsTruthy (JVal.obj [("score", JVal.num 65)]) = true ∧
    jsTypeofObject (JVal.obj [("score", JVal.num 65)]) = true ∧
    applyHealthMerge mPrior "BTC" (JVal.obj [("score", JVal.num 65)]) false "BTC" =
      some (JVal.obj [("score", JVal.num 65)]) :=
  ⟨rfl, rfl, mergeFull_is_authoritative mPrior "BTC" (JVal.obj [("score", JVal.num 65)]) rfl rfl⟩

/-- Claim C2, counterexample: the claim states that when the previous
record has multi-day metrics and the incoming fast record has none, the
merged record keeps the previous multi-day metric fields overlaid with
the incoming non-multi-day fields.  At this input both records carry
the short-window metric trend24h (previous 5, incoming 7); the merge
keeps the previous value 5, not the incoming 7, because the source
spreads the previous metrics over the incoming ones for every key. -/
theorem fastMerge_overrides_shortWindow_cex :
    hasMultiDay (jsOrEmptyObj (getJ c2prev "metrics")) = true ∧
    hasMultiDay (jsOrEmptyObj (getJ c2inc "metrics")) = false ∧
    getJ (jsOrEmptyObj (getJ c2inc "metrics")) "trend24h" = some (.num 7) ∧
    getJ ((getJ (mergeMarketHealth c2prev c2inc true) "metrics").getD .undefined) "trend24h" =
      some (.num 5) ∧
    some (JVal.num 5) ≠ some (JVal.num 7) :=
  ⟨rfl, rfl, rfl, rfl, by simp⟩

/-- Claim C2 as amended: under the stated hypotheses the fast merge
stores as metrics the previous metric fields spread over the incoming
ones, so every previous metric field wins and an incoming metric field
survives only where the previous metrics lack its key; the previous
score is kept whenever it is a number; and the reasons become the
previous non-24h string entries followed by the incoming 24h string
entries, capped at 12. -/
theorem fastMerge_multiday_policy (P I : JVal) (k : String) (n : Int)
    (hP1 : jsTruthy P = true) (hP2 : jsTypeofObject P = true)
    (hI1 : jsTruthy I = true) (hI2 : jsTypeofObject I = true)
    (hMD : hasMultiDay (jsOrEmptyObj (getJ P "metrics")) = true)
    (hMI : hasMultiDay (jsOrEmptyObj (getJ I "metrics")) = false)
    (hscore : getJ P "score" = some (.num n)) :
    getJ (mergeMarketHealth P I true) "metrics" =
      some (.obj (jsSpread (fieldsOf (jsOrEmptyObj (getJ I "metrics")))
                           (fieldsOf (jsOrEmptyObj (getJ P "metrics"))))) ∧
    lookupF (jsSpread (fieldsOf (jsOrEmptyObj (getJ I "metrics")))
                      (fieldsOf (jsOrEmptyObj (getJ P "metrics")))) k =
      (lookupF (fieldsOf (jsOrEmptyObj (getJ P "metrics"))) k).orElse
        (fun _ => lookupF (fieldsOf (jsOrEmptyObj (getJ I "metrics"))) k) ∧
    getJ (mergeMarketHealth P I true) "score" = some (.num n) ∧
    getJ (mergeMarketHealth P I true) "reasons" =
      some (.arr (((reasonsArr P).filter (fun s => isStrVal s && !test24h (strOfVal s)) ++
                   (reasonsArr I).filter (fun s => isStrVal s && test24h (strOfVal s))).take 12)) := by
  have hmerge : mergeMarketHealth P I true =
      .obj (setF (setF (setF (jsSpread (fieldsOf P) (fieldsOf I)) "metrics"
              (.obj (jsSpread (fieldsOf (jsOrEmptyObj (getJ I "metrics")))
                              (fieldsOf (jsOrEmptyObj (getJ P "metrics"))))))
            "score" (.num n))
            "reasons" (.arr (((reasonsArr P).filter (fun s => isStrVal s && !test24h (strOfVal s)) ++
                   (reasonsArr I).filter (fun s => isStrVal s && test24h (strOfVal s))).take 12))) := by
    unfold mergeMarketHealth
    rw [hI1, hI2, hP1, hP2]
    simp only [Bool.not_true, Bool.false_or, Bool.or_self, if_false, Bool.not_false, if_true]
    rw [hMD, hMI]
    simp only [Bool.not_false, Bool.and_self, if_true, hscore]
    simp [jsNumberIsFinite]
  refine ⟨?_, ?_, ?_, ?_⟩
  · rw [hmerge]
    simp [getJ, fieldsOf, setF, lookupF]
  · unfold jsSpread
    rw [lookupF_append]
  · rw [hmerge]
    simp [getJ, fieldsOf, setF, lookupF]
  · rw [hmerge]
    simp [getJ, fieldsOf, setF, lookupF]

/-- Witness for the amended C2: with the concrete records the stored
score stays the previous 50 and the reasons are the previous non-24h
entry followed by the incoming 24h entry. -/
theorem fastMerge_multiday_policy_witness :
    getJ c2prev "score" = some (JVal.num 50) ∧
    hasMultiDay (jsOrEmptyObj (getJ c2prev "metrics")) = true ∧
    hasMultiDay (jsOrEmptyObj (getJ c2inc "metrics")) = false ∧
    getJ (mergeMarketHealth c2prev c2inc true) "score" = some (JVal.num 50) ∧
    getJ (mergeMarketHealth c2prev c2inc true) "reasons" =
      some (.arr [.str "steady", .str "24h spike"]) :=
  ⟨rfl, rfl, rfl,
    (fastMerge_multiday_policy c2prev c2inc "trend24h" 50 rfl rfl rfl rfl rfl rfl rfl).2.2.1,
    ((fastMerge_multiday_policy c2prev c2inc "trend24h" 50 rfl rfl rfl rfl rfl rfl rfl).2.2.2).trans
      (by rfl)⟩

/-- Claim C3: starting from an empty cache, a fast merge of the first
scenario record, a full merge of the second and a fast merge of the
third leave BTC with score 65, metrics.trend30d equal to minus 5, and
reasons containing the trend30d entry and the 24h entry but not the
vol-up entry. -/
theorem watchlistHealthScenario :
    getJ scenarioFinal "score" = some (JVal.num 65) ∧
    getJ ((getJ scenarioFinal "metrics").getD .undefined) "trend30d" = some (JVal.num (-5)) ∧
    getJ scenarioFinal "reasons" =
      some (JVal.arr [JVal.str "trend30d down", JVal.str "24h spike"]) ∧
    JVal.str "trend30d down" ∈ [JVal.str "trend30d down", JVal.str "24h spike"] ∧
    JVal.str "24h spike" ∈ [JVal.str "trend30d down", JVal.str "24h spike"] ∧
    JVal.str "vol up" ∉ [JVal.str "trend30d down", JVal.str "24h spike"] :=
  ⟨rfl, rfl, rfl, by simp, by simp, by simp⟩

/-- Claim C4: merging the same record at tier full twice in succession
yields the same stored record as merging it once, for every previous
record and every incoming record. -/
theorem mergeFull_idempotent (P X : JVal) :
    mergeMarketHealth (mergeMarketHealth P X false) X false =
      mergeMarketHealth P X false := by
  by_cases h1 : jsTruthy X = true <;> by_cases h2 : jsTypeofObject X = true
  · rw [mergeFull_eq_incoming P X h1 h2, mergeFull_eq_incoming X X h1 h2]
  all_goals
    unfold mergeMarketHealth
    simp [h1, h2]

/-- Claim C5: for every storage, parser and stringifier behaviour,
every key, default and value, loadJson never throws and returns the
default on a thrown getItem, a missing key or an unparseable raw value,
and saveJson completes without propagating any failure. -/
theorem storage_ops_never_throw (getItem : String → Except Unit (Option String))
    (parse : String → Except Unit JVal) (setItem : String → String → Except Unit Unit)
    (stringify : JVal → Except Unit String) (key raw : String) (fallback v : JVal) :
    (loadJson getItem parse key fallback).isOk = true ∧
    (getItem key = .error () → loadJson getItem parse key fallback = .ok fallback) ∧
    (getItem key = .ok none → loadJson getItem parse key fallback = .ok fallback) ∧
    (getItem key = .ok (some raw) → parse raw = .error () →
      loadJson getItem parse key fallback = .ok fallback) ∧
    saveJson setItem stringify key v = .ok () := by
  refine ⟨?_, ?_, ?_, ?_, ?_⟩
  · rcases h : getItem key with u | r
    · simp [loadJson, h, Except.isOk, Except.toBool]
    · rcases r with _ | raw1
      · simp [loadJson, h, Except.isOk, Except.toBool]
      · by_cases he : raw1 = ""
        · simp [loadJson, h, he, Except.isOk, Except.toBool]
        · rcases hp : parse raw1 with u | w <;>
            simp [loadJson, h, he, hp, Except.isOk, Except.toBool]
  · intro h
    simp [loadJson, h]
  · intro h
    simp [loadJson, h]
  · intro h hp
    by_cases he : raw = ""
    · simp [loadJson, h, he]
    · simp [loadJson, h, he, hp]
  · rcases hs : stringify v with u | raw1
    · simp [saveJson, hs]
    · rcases ht : setItem key raw1 with u | u <;> simp [saveJson, hs, ht]

/-- Witness for C5: with a persistence layer that throws on every call,
loadJson returns the default and saveJson completes. -/
theorem storage_ops_never_throw_witness :
    loadJson (fun _ => .error ()) (fun _ => .error ()) "k" .null = .ok .null ∧
    saveJson (fun _ _ => .error ()) (fun _ => .ok "x") "k" .null = .ok () :=
  ⟨(storage_ops_never_throw (fun _ => .error ()) (fun _ => .error ())
      (fun _ _ => .error ()) (fun _ => .ok "x") "k" "r" .null .null).2.1 rfl,
   (storage_ops_never_throw (fun _ => .error ()) (fun _ => .error ())
      (fun _ _ => .error ()) (fun _ => .ok "x") "k" "r" .null .null).2.2.2.2⟩

/-- Claim C6: with a non-empty watchlist, an unknown primary input is
replaced by the first watchlist entity and an unknown compare input by
the second (or the first when only one exists); an unknown input is
never retained as an accepted identity, and no live record at all (in
particular no cached price of another identity) is displayed for it. -/
theorem reconciler_auto_corrects (watchlist : List String) (primary compare : String)
    (wlMap : String → Option JVal)
    (hne : wlItems watchlist ≠ []) :
    (isKnownSym watchlist primary = false →
      (reconcileSelections watchlist primary compare).1 = (wlItems watchlist).headD "" ∧
      (reconcileSelections watchlist primary compare).1 ∈ wlItems watchlist) ∧
    (isKnownSym watchlist compare = false →
      (reconcileSelections watchlist primary compare).2 =
        (wlItems watchlist).getD (min 1 ((wlItems watchlist).length - 1))
          ((wlItems watchlist).headD "") ∧
      (reconcileSelections watchlist primary compare).2 ∈ wlItems watchlist) ∧
    (isKnownSym watchlist primary = false →
      acceptedSym watchlist primary = "" ∧
      derivedLiveFor wlMap (acceptedSym watchlist primary) = none) := by
  have hie : (wlItems watchlist).isEmpty = false := by
    cases h : wlItems watchlist with
    | nil => exact absurd h hne
    | cons a t => rfl
  refine ⟨?_, ?_, ?_⟩
  · intro hp
    constructor
    · simp [reconcileSelections, hie, hp]
    · simp only [reconcileSelections, hie, hp]
      simp only [Bool.false_eq_true, if_false]
      cases h : wlItems watchlist with
      | nil => exact absurd h hne
      | cons a t => simp [h]
  · intro hc
    constructor
    · simp [reconcileSelections, hie, hc]
    · simp only [reconcileSelections, hie, hc]
      simp only [Bool.false_eq_true, if_false]
      cases h : wlItems watchlist with
      | nil => exact absurd h hne
      | cons a t =>
        cases t with
        | nil => simp [h]
        | cons b t2 => simp [h]
  · intro hp
    have hacc : acceptedSym watchlist primary = "" := by
      have hknown := hp
      simp only [isKnownSym, Bool.and_eq_false_eq_eq_false_or_eq_false] at hknown
      simp only [acceptedSym]
      cases hcont : (wlItems watchlist).contains (normalizeSymbol primary) with
      | false => simp
      | true =>
        simp only [if_pos rfl]
        rcases hknown with h1 | h2
        · simpa using h1
        · rw [hcont] at h2
          exact absurd h2 (by simp)
    refine ⟨hacc, ?_⟩
    rw [hacc]
    rfl

/-- Witness for C6: with watchlist A, B and unknown primary input
ZZZ-NOTFOUND, the reconciled primary is A, the accepted identity is
empty, and no live view is derived even though A has a cached price. -/
theorem reconciler_auto_corrects_witness :
    wlItems ["A", "B"] ≠ [] ∧
    (reconcileSelections ["A", "B"] "ZZZ-NOTFOUND" "B").1 = "A" ∧
    acceptedSym ["A", "B"] "ZZZ-NOTFOUND" = "" ∧
    derivedLiveFor c6wlMap (acceptedSym ["A", "B"] "ZZZ-NOTFOUND") = none :=
  ⟨by decide,
   ((reconciler_auto_corrects ["A", "B"] "ZZZ-NOTFOUND" "B" c6wlMap (by decide)).1
      (by decide)).1.trans (by decide),
   ((reconciler_auto_corrects ["A", "B"] "ZZZ-NOTFOUND" "B" c6wlMap (by decide)).2.2
      (by decide)).1,
   ((reconciler_auto_corrects ["A", "B"] "ZZZ-NOTFOUND" "B" c6wlMap (by decide)).2.2
      (by decide)).2⟩

/-- Claim C7, counterexample: removing BTC from the watchlist leaves
both in-memory cache entries for BTC fully readable, contradicting the
claimed immediate and total eviction. -/
theorem removeFromWatchlist_retains_caches_cex :
    (removeFromWatchlist "BTC" c7st).watchlist = [] ∧
    (removeFromWatchlist "BTC" c7st).marketHealthMap "BTC" = some c7rec ∧
    (removeFromWatchlist "BTC" c7st).wlCache "BTC" =
      some (JVal.obj [("price", JVal.num 100)]) :=
  ⟨rfl, rfl, rfl⟩

/-- Claim C7 as amended: removing an identity removes every matching
entry from the watchlist itself, but the in-memory health cache and
snapshot cache are left completely unchanged; no eviction occurs. -/
theorem removeFromWatchlist_no_eviction (st : DashState) (sym x : String)
    (hx : x ∈ (removeFromWatchlist sym st).watchlist) :
    normalizeSymbol x ≠ normalizeSymbol sym ∧
    (removeFromWatchlist sym st).marketHealthMap = st.marketHealthMap ∧
    (removeFromWatchlist sym st).wlCache = st.wlCache := by
  refine ⟨?_, rfl, rfl⟩
  simp only [removeFromWatchlist] at hx
  have hb := (List.mem_filter.mp hx).2
  simpa [bne_iff_ne] using hb

/-- Witness for the amended C7: after removing BTC the remaining entry
ETH does not normalize to BTC and both caches are untouched. -/
theorem removeFromWatchlist_no_eviction_witness :
    normalizeSymbol "ETH" ≠ normalizeSymbol "BTC" ∧
    (removeFromWatchlist "BTC" c7wst).marketHealthMap = c7wst.marketHealthMap ∧
    (removeFromWatchlist "BTC" c7wst).wlCache = c7wst.wlCache :=
  removeFromWatchlist_no_eviction c7wst "BTC" "ETH" (by decide)

/-- Claim C8, counterexample: an order reported with status OPEN whose
id is the empty string (a value the code treats as falsy) does not
un-hide that id, although the id is in the hidden list and the order is
reported OPEN; the claim demands its removal from the hidden list. -/
theorem unhideStep_empty_id_cex :
    statusUpper ⟨some "", some "OPEN", none⟩ = "OPEN" ∧
    ("" : String) ∈ ([""] : List String) ∧
    unhideStep [⟨some "", some "OPEN", none⟩] [""] = [""] ∧
    ("" : String) ∈ unhideStep [⟨some "", some "OPEN", none⟩] [""] := by
  refine ⟨rfl, ?_, rfl, ?_⟩ <;> decide

/-- Claim C8 as amended: if the backend reports an order with status
OPEN whose id is present and non-empty, that id is removed from the
hidden list; and any hidden id for which no open order is reported
remains hidden. -/
theorem unhideStep_open_orders (orders : List GridOrder) (hidden : List String)
    (o : GridOrder) (s idv : String)
    (ho : o ∈ orders) (hst : statusUpper o = "OPEN") (hid : o.id = some s) (hs : s ≠ "") :
    s ∉ unhideStep orders hidden ∧
    (idv ∉ openIdsOf orders → idv ∈ hidden → idv ∈ unhideStep orders hidden) := by
  have hsopen : s ∈ openIdsOf orders := by
    unfold openIdsOf
    refine List.mem_map.mpr ⟨o, ?_, ?_⟩
    · refine List.mem_filter.mpr ⟨ho, ?_⟩
      simp [hst, truthyId, hid, hs]
    · simp [idOf, hid]
  have hoe : orders.isEmpty = false := by
    cases horders : orders with
    | nil => rw [horders] at ho; exact absurd ho (List.not_mem_nil o)
    | cons a t => rfl
  have hopen_ne : (openIdsOf orders).isEmpty = false := by
    cases hoi : openIdsOf orders with
    | nil => rw [hoi] at hsopen; exact absurd hsopen (List.not_mem_nil s)
    | cons a t => rfl
  have hmem_iff : ∀ x : String,
      x ∈ unhideStep orders hidden ↔
      x ∈ hidden.filter (fun id => !(openIdsOf orders).contains id) := by
    intro x
    rw [unhideStep_eq orders hidden hoe hopen_ne]
    by_cases hlen :
        (hidden.filter (fun id => !(openIdsOf orders).contains id)).length = hidden.length
    · rw [if_pos hlen, filter_of_length_eq _ _ hlen]
    · rw [if_neg hlen]
  constructor
  · intro hmem
    have hf := (hmem_iff s).mp hmem
    have hcon := (List.mem_filter.mp hf).2
    simp only [Bool.not_eq_true'] at hcon
    have htrue : (openIdsOf orders).contains s = true := List.elem_iff.mpr hsopen
    rw [htrue] at hcon
    exact absurd hcon (by simp)
  · intro hnot hmem
    refine (hmem_iff idv).mpr (List.mem_filter.mpr ⟨hmem, ?_⟩)
    simp only [Bool.not_eq_true']
    cases hc : (openIdsOf orders).contains idv with
    | false => rfl
    | true => exact absurd (List.elem_iff.mp hc) hnot

/-- Witness for the amended C8: the reported open order with id 42
un-hides 42 while the id 99, not reported open, stays hidden. -/
theorem unhideStep_open_orders_witness :
    statusUpper c8order = "OPEN" ∧
    "42" ∉ unhideStep [c8order] ["42", "99"] ∧
    "99" ∈ unhideStep [c8order] ["42", "99"] :=
  ⟨rfl,
   (unhideStep_open_orders [c8order] ["42", "99"] c8order "42" "99"
      (by decide) rfl rfl (by decide)).1,
   (unhideStep_open_orders [c8order] ["42", "99"] c8order "42" "99"
      (by decide) rfl rfl (by decide)).2 (by decide) (by decide)⟩

/-- Claim C9, counterexample: a 2xx response whose non-empty body is
not JSON is wrapped as a raw-text object, returned non-null and merged
into the health cache, contradicting the claim that any non-JSON body
returns null and leaves the cache unchanged. -/
theorem fetchMarketHealth_raw_body_cex :
    (fetchMarketHealth "BTC" (.response true "oops") (fun _ => none) emptyHealthMap true).1 =
      some (.obj [("raw", .str "oops")]) ∧
    (fetchMarketHealth "BTC" (.response true "oops") (fun _ => none) emptyHealthMap true).2 "BTC" =
      some (.obj [("raw", .str "oops")]) ∧
    emptyHealthMap "BTC" = none ∧
    (some (JVal.obj [("raw", JVal.str "oops")]) : Option JVal) ≠ none :=
  ⟨rfl, rfl, rfl, by simp⟩

/-- Claim C9 as amended: a tier fetch returns null and leaves the cache
unchanged on a transport error, a timeout, a non-2xx response or a 2xx
empty body, and the fixed request timeout is 15000 ms, within the 15 to
25 second bound. -/
theorem fetchMarketHealth_fails_soft (symbol : String) (m : HealthMap) (fast : Bool)
    (parse : String → Option JVal) (net : NetResult)
    (h : net = .transportError ∨ net = .timeout ∨
         (∃ body, net = .response false body) ∨ net = .response true "") :
    fetchMarketHealth symbol net parse m fast = (none, m) ∧
    15000 ≤ jgetDefaultTimeoutMs ∧ jgetDefaultTimeoutMs ≤ 25000 := by
  refine ⟨?_, by norm_num [jgetDefaultTimeoutMs], by norm_num [jgetDefaultTimeoutMs]⟩
  by_cases hS : normalizeSymbol symbol = ""
  · simp [fetchMarketHealth, hS]
  · rcases h with h | h | ⟨body, h⟩ | h <;> subst h <;>
      simp [fetchMarketHealth, hS, jget, getJ, fieldsOf, lookupF, jsTruthy]

/-- Witness for the amended C9: a timed-out fetch for BTC returns null
and leaves the empty cache unchanged. -/
theorem fetchMarketHealth_fails_soft_witness :
    fetchMarketHealth "BTC" .timeout (fun _ => none) emptyHealthMap true =
      (none, emptyHealthMap) ∧
    15000 ≤ jgetDefaultTimeoutMs ∧ jgetDefaultTimeoutMs ≤ 25000 :=
  fetchMarketHealth_fails_soft "BTC" emptyHealthMap true (fun _ => none) .timeout
    (Or.inr (Or.inl rfl))

/-- Claim C10: an order whose id is absent is always in the visible
result regardless of the hidden list, and an order filtered out as
hidden necessarily has a present id. -/
theorem gridOrdersVisible_absent_id (orders : List GridOrder) (hidden : List String)
    (o : GridOrder) (ho : o ∈ orders) :
    (o.id = none → o ∈ gridOrdersVisibleAll orders hidden) ∧
    (o ∉ gridOrdersVisibleAll orders hidden → o.id ≠ none) := by
  constructor
  · intro hid
    refine List.mem_filter.mpr ⟨ho, ?_⟩
    rw [hid]
  · intro hnot hid
    exact hnot (List.mem_filter.mpr ⟨ho, by rw [hid]⟩)

/-- Witness for C10: the id-less order stays visible under a non-empty
hidden list. -/
theorem gridOrdersVisible_absent_id_witness :
    c10order.id = none ∧ c10order ∈ gridOrdersVisibleAll [c10order] ["7"] :=
  ⟨rfl, (gridOrdersVisible_absent_id [c10order] ["7"] c10order (by decide)).1 rfl⟩

end NexusGrid
